import Mathlib

/-!
# Verification of the pesto-codex suggestion / cooldown pipeline

Shallow embedding of the user-suggestion and cooldown-gated tagging pipeline
of the repository (files `utils.py`, `graph.py`, `nlp.py`).  External
collaborators (the OpenAI classifier, the Neo4j graph store, Slack, Airtable)
are modelled as explicit inputs: a classifier call is an `LLMOutcome` value
and a per-topic graph query is a function from topic to `Except`-wrapped
results.  Machine time (`time.time()`) is modelled as an integer number of
seconds passed explicitly to the cooldown operations.

Python string methods (`strip`, `lower`, `upper`, `split`, `in`) are embedded
as structurally recursive functions over `List Char`, so that every
definition evaluates inside the kernel.
-/

/-! ## Python string primitives -/

/-- ASCII whitespace as stripped by Python's `str.strip()`. -/
def isSpaceCh (c : Char) : Bool :=
  c == ' ' || c == '\t' || c == '\n' || c == '\r' || c == '\x0b' || c == '\x0c'

/-- Python `str.lower()` (ASCII). -/
def pyLower (s : String) : String := String.mk (s.toList.map Char.toLower)

/-- Python `str.upper()` (ASCII). -/
def pyUpper (s : String) : String := String.mk (s.toList.map Char.toUpper)

/-- Strip leading and trailing whitespace from a character list. -/
def trimCh (l : List Char) : List Char :=
  ((l.dropWhile isSpaceCh).reverse.dropWhile isSpaceCh).reverse

/-- Python `str.strip()`. -/
def pyStrip (s : String) : String := String.mk (trimCh s.toList)

/-- Worker for `pySplit`: accumulates the current (reversed) chunk. -/
def splitChAux (sep : Char) : List Char → List Char → List (List Char)
  | [], cur => [cur.reverse]
  | c :: cs, cur =>
    if c == sep then cur.reverse :: splitChAux sep cs []
    else splitChAux sep cs (c :: cur)

/-- Python `str.split(sep)` for a one-character separator (the source only
splits on `","` and `"|"`). -/
def pySplit (sep : Char) (s : String) : List String :=
  (splitChAux sep s.toList []).map String.mk

/-- Worker for `pySplitFirst`. -/
def splitFirstAux (sep : Char) : List Char → List Char × List Char
  | [] => ([], [])
  | c :: cs =>
    if c == sep then ([], cs)
    else
      let p := splitFirstAux sep cs
      (c :: p.1, p.2)

/-- Python `str.split(sep, 1)` for a one-character separator, returning the
part before the first separator and the remainder after it (the source only
uses it when the separator is known to occur). -/
def pySplitFirst (sep : Char) (s : String) : String × String :=
  let p := splitFirstAux sep s.toList
  (String.mk p.1, String.mk p.2)

/-- Python `c in s` for a one-character needle. -/
def pyContainsChar (s : String) (c : Char) : Bool := s.toList.contains c

/-- `hay` starts with `needle` (character lists). -/
def charsStartWith : List Char → List Char → Bool
  | _, [] => true
  | [], _ :: _ => false
  | h :: hs, n :: ns => h == n && charsStartWith hs ns

/-- `needle` occurs as a contiguous substring of `hay` (character lists). -/
def charsContain : List Char → List Char → Bool
  | [], needle => needle.isEmpty
  | h :: hs, needle => charsStartWith (h :: hs) needle || charsContain hs needle

/-- Python `needle in hay` for strings. -/
def hasSubstr (hay needle : String) : Bool :=
  charsContain hay.toList needle.toList

/-! ## External classifier outcomes

Every OpenAI call site in the source distinguishes the same four outcomes:
a complete response, an incomplete (`max_output_tokens`) response that still
carries partial text, an incomplete response with no text at all, and a
raised exception.  We reify that as a data type so each caller's handling
can be embedded faithfully. -/

/-- Outcome of one external classifier (OpenAI) call, as the call sites in
`utils.py` / `nlp.py` distinguish them. -/
inductive LLMOutcome where
  | ok (text : String)
  | incompleteWithText (text : String)
  | incompleteNoText
  | exn
deriving DecidableEq

/-! ## Cooldown tracker (`utils.py` lines 36-121)

The cooldown map `user_tag_cooldowns` is a Python dict from user id to the
`time.time()` value of the last tagging; we embed it as an association list
from user id to integer seconds, preserving dict insertion-order semantics.
The lock around each operation serializes it; each embedded function is one
such lock-protected operation. -/

/-- `USER_TAG_COOLDOWN = 3600` (`utils.py` line 37). -/
def USER_TAG_COOLDOWN : Int := 3600

/-- `is_user_in_cooldown` (`utils.py` lines 67-71): the stored timestamp
defaults to `0` for an absent entry (`dict.get(user_id, 0)`), and the user is
in cooldown iff the elapsed time is less than `USER_TAG_COOLDOWN`. -/
def is_user_in_cooldown (cooldowns : List (String × Int)) (now : Int)
    (user_id : String) : Bool :=
  let last_tagged := (cooldowns.lookup user_id).getD 0
  decide (now - last_tagged < USER_TAG_COOLDOWN)

/-- `update_user_cooldown` (`utils.py` lines 73-76): dict assignment
`user_tag_cooldowns[user_id] = time.time()` — overwrite in place if the key
exists, else append a fresh entry. -/
def update_user_cooldown : List (String × Int) → String → Int →
    List (String × Int)
  | [], user_id, now => [(user_id, now)]
  | (v, s) :: rest, user_id, now =>
    if v = user_id then (user_id, now) :: rest
    else (v, s) :: update_user_cooldown rest user_id now

/-- `get_cooldown_remaining` (`utils.py` lines 78-83):
`max(0, int(USER_TAG_COOLDOWN - elapsed))`. -/
def get_cooldown_remaining (cooldowns : List (String × Int)) (now : Int)
    (user_id : String) : Int :=
  let last_tagged := (cooldowns.lookup user_id).getD 0
  let elapsed := now - last_tagged
  max 0 (USER_TAG_COOLDOWN - elapsed)

/-! ## Topic expander (`utils.py` lines 497-586, `expand_topics_for_matching`)

The o3-mini call is the `LLMOutcome` argument; everything after the call is
embedded verbatim: split the response on `|` into groups, split each group on
`,`, strip each term, keep non-empty unseen terms in first-occurrence order,
then append any canonical topic that is still missing.  An incomplete
response with no text and a raised exception both fall back to the original
list (`return canonical_topics`). -/

/-- The parsing loop of `expand_topics_for_matching` (`utils.py` lines
549-562).  The accumulator doubles as the `seen_topics` set: the source keeps
`seen_topics` exactly equal to the set of elements of `expanded_topics`. -/
def parseExpansion (content : String) : List String :=
  (pySplit '|' content).foldl
    (fun acc group =>
      ((pySplit ',' group).map pyStrip).foldl
        (fun acc term =>
          let term := pyStrip term
          if term ≠ "" ∧ term ∉ acc then acc ++ [term] else acc)
        acc)
    []

/-- `expand_topics_for_matching` (`utils.py` lines 497-586). -/
def expand_topics_for_matching (outcome : LLMOutcome)
    (canonical_topics : List String) : List String :=
  match outcome with
  | .exn => canonical_topics
  | .incompleteNoText => canonical_topics
  | .ok text | .incompleteWithText text =>
    let content := pyStrip text
    let expanded_topics := parseExpansion content
    canonical_topics.foldl
      (fun acc topic => if topic ∉ acc then acc ++ [topic] else acc)
      expanded_topics

/-! ## Relevance ranker (`graph.py` lines 190-283,
`get_relevant_users_for_topics`)

One row returned by the per-topic Cypher query. -/

/-- One `(user)-[relationship]->(topic)` edge observation as returned by the
graph store (`graph.py` lines 221-236). -/
structure GraphUser where
  user_id : String
  name : String
  relationship : String
  activity_level : Nat
deriving DecidableEq

/-- The per-topic loop of `get_relevant_users_for_topics` (`graph.py` lines
214-276).  The whole loop runs inside one `try`: the first query that raises
jumps to the `except` handler, which returns `{}` — discarding the results
already accumulated for earlier topics.  A topic with an empty result list is
not entered into the mapping (`if topic_users:`). -/
def queryLoop (query : String → Except Unit (List GraphUser)) :
    List String → List (String × List GraphUser) →
    List (String × List GraphUser)
  | [], results => results
  | topic :: rest, results =>
    match query topic with
    | .error _ => []
    | .ok topic_users =>
      queryLoop query rest
        (if topic_users.isEmpty then results else results ++ [(topic, topic_users)])

/-- `get_relevant_users_for_topics` (`graph.py` lines 190-283), with the
external graph store abstracted as the per-topic `query` function (which
already applies the `exclude_user_id` filter, the priority/activity ordering
and the `LIMIT` server-side, per the Cypher text). -/
def get_relevant_users_for_topics (query : String → Except Unit (List GraphUser))
    (topics : List String) : List (String × List GraphUser) :=
  queryLoop query topics []

/-! ## Label/relationship parsers (`nlp.py`) -/

/-- The shared `Topic|RelationshipType` parsing loop of
`extract_topics_with_relationships` (`nlp.py` lines 59-69) and
`extract_interests_with_relationships` (`nlp.py` lines 124-134),
parameterised by the default tag used when `|` is absent. -/
def parseLabeled (dflt : String) (content : String) : List (String × String) :=
  (pySplit ',' content).map fun item0 =>
    let item := pyStrip item0
    if pyContainsChar item '|' then
      let p := pySplitFirst '|' item
      (pyStrip p.1, pyStrip p.2)
    else (pyStrip item, dflt)

/-- `extract_topics_with_relationships` (`nlp.py` lines 10-90): default tag
`"MENTIONS"`; an exception or a token-exhausted response with no text yields
`[]`. -/
def extract_topics_with_relationships (outcome : LLMOutcome) :
    List (String × String) :=
  match outcome with
  | .exn => []
  | .incompleteNoText => []
  | .ok text | .incompleteWithText text => parseLabeled "MENTIONS" (pyStrip text)

/-- `extract_interests_with_relationships` (`nlp.py` lines 92-136): default
tag `"IS_EXPERT_IN"`; this function has no `try`/`except`, so an exception
from the classifier call propagates to the caller (modelled as `.error`). -/
def extract_interests_with_relationships (outcome : LLMOutcome) :
    Except Unit (List (String × String)) :=
  match outcome with
  | .exn => .error ()
  | .incompleteNoText => .ok []
  | .ok text | .incompleteWithText text =>
    .ok (parseLabeled "IS_EXPERT_IN" (pyStrip text))

/-! ## Suggestion engine (`utils.py` lines 588-749, `suggest_relevant_users`)

The expansion and graph query (steps 1-2) are external calls; the embedding
takes their combined output — the topic-to-users mapping `relevant_users` —
as an argument, together with the cooldown predicate, and performs the
consolidation, sorting, cooldown filtering and truncation of steps 3-5. -/

/-- The consolidated per-user entry built in `user_map`
(`utils.py` lines 650-658). -/
structure Candidate where
  user_id : String
  name : String
  relationships : List (String × String × Nat)
  best_relationship : String
  activity_level : Nat
  topics : List String
deriving DecidableEq

/-- The `suggestions` dict (`utils.py` lines 630-634); the `message` field is
never filled by `suggest_relevant_users` itself. -/
structure Suggestions where
  topics : List String
  users : List Candidate
  message : String
deriving DecidableEq

/-- Case-insensitive bidirectional substring match of a canonical topic
against a found topic (`utils.py` line 644). -/
def topicMatches (canonical found_topic : String) : Bool :=
  hasSubstr (pyLower found_topic) (pyLower canonical) ||
    hasSubstr (pyLower canonical) (pyLower found_topic)

/-- Map a found topic back to the first matching canonical topic, keeping the
found topic itself when none matches (`utils.py` lines 641-646). -/
def mapCanonical (topics : List String) (found_topic : String) : String :=
  match topics.find? (fun canonical => topicMatches canonical found_topic) with
  | some canonical => canonical
  | none => found_topic

/-- The best-relationship upgrade applied per edge (`utils.py` lines
670-674): only `IS_EXPERT_IN` and `WORKING_ON` ever replace the stored
value. -/
def upgradeRel (best rel : String) : String :=
  if rel = "IS_EXPERT_IN" then "IS_EXPERT_IN"
  else if rel = "WORKING_ON" ∧ best ≠ "IS_EXPERT_IN" then "WORKING_ON"
  else best

/-- The fresh `user_map[user_id]` entry (`utils.py` lines 650-658). -/
def freshCand (user : GraphUser) : Candidate :=
  { user_id := user.user_id
    name := user.name
    relationships := []
    best_relationship := user.relationship
    activity_level := user.activity_level
    topics := [] }

/-- The per-edge update applied to an entry (`utils.py` lines 660-674):
append the canonical topic if new, append the relationship record, apply the
best-relationship upgrade.  Activity level is left untouched. -/
def updateCand (c : Candidate) (canonical_topic : String) (user : GraphUser) :
    Candidate :=
  { c with
    topics :=
      if canonical_topic ∈ c.topics then c.topics else c.topics ++ [canonical_topic]
    relationships :=
      c.relationships ++ [(canonical_topic, user.relationship, user.activity_level)]
    best_relationship := upgradeRel c.best_relationship user.relationship }

/-- Process one `(canonical_topic, user)` edge against the insertion-ordered
`user_map` (`utils.py` lines 648-674): update the existing entry for this
user id, or append a fresh one. -/
def addEdge : List Candidate → String → GraphUser → List Candidate
  | [], canonical_topic, user => [updateCand (freshCand user) canonical_topic user]
  | c :: rest, canonical_topic, user =>
    if c.user_id = user.user_id then updateCand c canonical_topic user :: rest
    else c :: addEdge rest canonical_topic user

/-- The consolidation double loop of `suggest_relevant_users` (`utils.py`
lines 636-674): for each found topic (in mapping order) and each of its users
(in ranker order), fold the edge into `user_map`. -/
def consolidate (topics : List String)
    (relevant_users : List (String × List GraphUser)) : List Candidate :=
  relevant_users.foldl
    (fun user_map p =>
      p.2.foldl
        (fun user_map user => addEdge user_map (mapCanonical topics p.1) user)
        user_map)
    []

/-- The sort-key priority (`utils.py` lines 680-682): `IS_EXPERT_IN ↦ 1`,
`WORKING_ON ↦ 2`, everything else — including both `INTERESTED_IN` and
`MENTIONS` — `↦ 3`. -/
def relPriority (rel : String) : Nat :=
  if rel = "IS_EXPERT_IN" then 1 else if rel = "WORKING_ON" then 2 else 3

/-- The total preorder induced by the sort key
`(relPriority, -activity_level)` of `utils.py` lines 679-683. -/
def candLe (c d : Candidate) : Prop :=
  relPriority c.best_relationship < relPriority d.best_relationship ∨
    (relPriority c.best_relationship = relPriority d.best_relationship ∧
      d.activity_level ≤ c.activity_level)

instance : DecidableRel candLe := fun c d => by
  unfold candLe; exact inferInstance

instance : IsTotal Candidate candLe := by
  constructor
  intro a b
  unfold candLe
  rcases Nat.lt_trichotomy (relPriority a.best_relationship)
      (relPriority b.best_relationship) with h | h | h
  · exact .inl (.inl h)
  · rcases Nat.le_total b.activity_level a.activity_level with h' | h'
    · exact .inl (.inr ⟨h, h'⟩)
    · exact .inr (.inr ⟨h.symm, h'⟩)
  · exact .inr (.inl h)

instance : IsTrans Candidate candLe := by
  constructor
  intro a b c hab hbc
  unfold candLe at *
  rcases hab with h1 | ⟨h1, h1'⟩ <;> rcases hbc with h2 | ⟨h2, h2'⟩
  · exact .inl (h1.trans h2)
  · exact .inl (h2 ▸ h1)
  · exact .inl (h1 ▸ h2)
  · exact .inr ⟨h1.trans h2, h2'.trans h1'⟩

/-- `sorted(user_map.values(), key=lambda u: (priority, -activity))`
(`utils.py` lines 679-683).  Python's `sorted` is a stable sort by the key
tuple; `List.insertionSort` over the induced total preorder `candLe` is that
stable sort (it is sorted w.r.t. `candLe` and preserves the relative order
of key-equivalent elements). -/
def sortCandidates (user_map : List Candidate) : List Candidate :=
  List.insertionSort candLe user_map

/-- The sorted candidate pool of one `suggest_relevant_users` invocation. -/
def suggestSorted (topics : List String)
    (relevant_users : List (String × List GraphUser)) : List Candidate :=
  sortCandidates (consolidate topics relevant_users)

/-- The cooldown-filter loop (`utils.py` lines 687-702): walk the sorted
pool in order, appending each user to `available_users` or to
`cooldown_filtered`. Returns `(available_users, cooldown_filtered)`. -/
def filterCooldown (in_cooldown : String → Bool)
    (sorted_users : List Candidate) : List Candidate × List Candidate :=
  sorted_users.foldl
    (fun acc user =>
      if in_cooldown user.user_id then (acc.1, acc.2 ++ [user])
      else (acc.1 ++ [user], acc.2))
    ([], [])

/-- `suggest_relevant_users` (`utils.py` lines 588-749), steps 3-5: `none`
only when the ranker's mapping is empty (`if not relevant_users: return
None`); otherwise the `suggestions` dict is returned with
`users = available_users[:max_suggestions]` — even when that slice is empty.
The cooldown predicate abstracts `is_user_in_cooldown` at the current time. -/
def suggest_relevant_users (topics : List String)
    (relevant_users : List (String × List GraphUser))
    (in_cooldown : String → Bool) (max_suggestions : Nat) : Option Suggestions :=
  if relevant_users.isEmpty then none
  else
    let sorted_users := suggestSorted topics relevant_users
    let available_users := (filterCooldown in_cooldown sorted_users).1
    let top_users := available_users.take max_suggestions
    some { topics := topics, users := top_users, message := "" }

/-! ## Tagging gate (`utils.py` lines 927-1011, `should_suggest_users`) -/

/-- The fixed technical-keyword list of the conservative fallback
(`utils.py` lines 1004-1005). -/
def tech_keywords : List String :=
  ["ai", "ml", "machine learning", "artificial intelligence",
   "data", "software", "programming", "robotics", "research"]

/-- `should_suggest_users` (`utils.py` lines 927-1011).  The guards on the
topic list run before the classifier call; the classifier outcome is the
`outcome` argument; the `except` branch is the conservative keyword
heuristic. -/
def should_suggest_users (outcome : LLMOutcome) (channel_id : String)
    (topics : List String) : Bool :=
  if topics.isEmpty then false
  else if topics.length > 8 then false
  else
    match outcome with
    | .ok text | .incompleteWithText text =>
      let decision := pyUpper (pyStrip text)
      decision == "YES"
    | .incompleteNoText => false
    | .exn =>
      let has_tech := topics.any fun topic =>
        tech_keywords.any fun keyword => hasSubstr (pyLower topic) keyword
      has_tech && topics.length ≤ 3

/-! ## Concrete fixtures used by the closed theorems -/

deriving instance DecidableEq for Except

/-- A single graph edge observation used in concrete scenarios. -/
def gAlice : GraphUser := ⟨"U1", "Alice", "MENTIONS", 1⟩

/-- Ranker output with one topic whose two candidates sit in the merged
lowest tier: a `MENTIONS` user with activity 5 and an `INTERESTED_IN` user
with activity 1. -/
def relTier : List (String × List GraphUser) :=
  [("AI", [⟨"U1", "Mia", "MENTIONS", 5⟩, ⟨"U2", "Ivy", "INTERESTED_IN", 1⟩])]

/-- Ranker output in which one user appears under two found topics, first
with a `MENTIONS` edge (activity 2) and then with an `INTERESTED_IN` edge
(activity 7). -/
def relMerge : List (String × List GraphUser) :=
  [("AI", [⟨"U1", "Bob", "MENTIONS", 2⟩]), ("ML", [⟨"U1", "Bob", "INTERESTED_IN", 7⟩])]

/-- The consolidated candidate that `consolidate ["AI"] relMerge` produces. -/
def candBob : Candidate :=
  ⟨"U1", "Bob", [("AI", "MENTIONS", 2), ("ML", "INTERESTED_IN", 7)], "MENTIONS", 2,
    ["AI", "ML"]⟩

/-- A per-topic graph query that raises on topic `"B"` and succeeds with one
edge observation on every other topic. -/
def queryBError : String → Except Unit (List GraphUser) :=
  fun topic => if topic = "B" then .error () else .ok [gAlice]

/-! ## Helper lemmas -/

/-- Looking up the just-written key after `update_user_cooldown` yields the
new timestamp. -/
theorem lookup_update_user_cooldown (cooldowns : List (String × Int))
    (user_id : String) (now : Int) :
    (update_user_cooldown cooldowns user_id now).lookup user_id = some now := by
  induction cooldowns with
  | nil => simp [update_user_cooldown, List.lookup]
  | cons e rest ih =>
    obtain ⟨v, s⟩ := e
    by_cases h : v = user_id
    · simp [update_user_cooldown, h, List.lookup]
    · have hbe : (user_id == v) = false := by
        simp [beq_iff_eq]; exact Ne.symm h
      simp only [update_user_cooldown, if_neg h, List.lookup, hbe]
      exact ih

/-- A fold step that only ever appends preserves membership. -/
theorem mem_foldl_append_if (l : List String) :
    ∀ (acc : List String) (t : String), t ∈ acc →
      t ∈ l.foldl (fun acc topic => if topic ∉ acc then acc ++ [topic] else acc) acc := by
  induction l with
  | nil => intro acc t h; simpa using h
  | cons c cs ih =>
    intro acc t h
    rw [List.foldl_cons]
    refine ih _ t ?_
    show t ∈ if c ∉ acc then acc ++ [c] else acc
    by_cases hc : c ∉ acc
    · rw [if_pos hc]; exact List.mem_append_left _ h
    · rw [if_neg hc]; exact h

/-- Every canonical topic survives the "ensure all original topics are
included" loop of `expand_topics_for_matching`. -/
theorem mem_ensure_originals (canonical : List String) :
    ∀ (acc : List String) (t : String), t ∈ canonical →
      t ∈ canonical.foldl (fun acc topic => if topic ∉ acc then acc ++ [topic] else acc) acc := by
  induction canonical with
  | nil => intro acc t h; cases h
  | cons c cs ih =>
    intro acc t h
    rw [List.foldl_cons]
    rcases List.mem_cons.mp h with rfl | hcs
    · refine mem_foldl_append_if cs _ t ?_
      show t ∈ if t ∉ acc then acc ++ [t] else acc
      by_cases hc : t ∉ acc
      · rw [if_pos hc]; exact List.mem_append_right _ (List.mem_singleton_self t)
      · rw [if_neg hc]; simpa using hc
    · exact ih _ t hcs

/-- A graph-store error on any topic in the list makes the per-topic loop
return the empty mapping, whatever was already accumulated. -/
theorem queryLoop_error (query : String → Except Unit (List GraphUser)) :
    ∀ (topics : List String) (acc : List (String × List GraphUser)),
      (∃ t ∈ topics, query t = .error ()) → queryLoop query topics acc = [] := by
  intro topics
  induction topics with
  | nil => intro acc h; obtain ⟨t, ht, _⟩ := h; cases ht
  | cons topic rest ih =>
    intro acc h
    cases hq : query topic with
    | error e => simp [queryLoop, hq]
    | ok topic_users =>
      simp only [queryLoop, hq]
      apply ih
      obtain ⟨t, ht, herr⟩ := h
      rcases List.mem_cons.mp ht with rfl | hrest
      · rw [hq] at herr; cases herr
      · exact ⟨t, hrest, herr⟩

/-- The `available_users` accumulator of the cooldown-filter loop is the
initial accumulator followed by the cooldown-free survivors in order. -/
theorem filterCooldown_foldl (in_cooldown : String → Bool) :
    ∀ (l : List Candidate) (a b : List Candidate),
      (l.foldl
        (fun acc user =>
          if in_cooldown user.user_id then (acc.1, acc.2 ++ [user])
          else (acc.1 ++ [user], acc.2))
        (a, b)).1 = a ++ l.filter (fun u => !in_cooldown u.user_id) := by
  intro l
  induction l with
  | nil => intro a b; simp
  | cons u rest ih =>
    intro a b
    by_cases h : in_cooldown u.user_id
    · simp [List.foldl_cons, h, ih, List.filter_cons]
    · simp [List.foldl_cons, h, ih, List.filter_cons]

/-- `available_users` is exactly the sorted pool filtered by the cooldown
predicate (`utils.py` lines 687-702). -/
theorem filterCooldown_fst (in_cooldown : String → Bool) (l : List Candidate) :
    (filterCooldown in_cooldown l).1 = l.filter (fun u => !in_cooldown u.user_id) := by
  simpa using filterCooldown_foldl in_cooldown l [] []

/-! ## Claim theorems -/

/-- C2 counterexample: with a query that raises only on topic `"B"` but
succeeds with results on `"A"` and `"C"`, the ranking of `["A", "B", "C"]`
is the empty mapping — the results of the other topics are NOT retained,
refuting the claim that a per-topic graph error leaves the remaining
topics' results in the mapping. -/
theorem ranker_per_topic_error_counterexample :
    get_relevant_users_for_topics queryBError ["A", "B", "C"] = [] ∧
    queryBError "A" = Except.ok [gAlice] ∧
    queryBError "C" = Except.ok [gAlice] := by
  refine ⟨by decide, by decide, by decide⟩

/-- C2 amended: a graph-store error raised while querying any individual
topic aborts the whole ranking — the exception is caught around the whole
per-topic loop and the function returns the empty mapping, discarding the
results already accumulated for every other topic (`graph.py` lines
214-283). -/
theorem ranker_error_aborts_all (query : String → Except Unit (List GraphUser))
    (topics : List String) (h : ∃ t ∈ topics, query t = .error ()) :
    get_relevant_users_for_topics query topics = [] :=
  queryLoop_error query topics [] h

/-- C2 witness: the amended theorem applied to the concrete erroring query. -/
theorem ranker_error_aborts_all_witness :
    get_relevant_users_for_topics queryBError ["A", "B", "C"] = [] :=
  ranker_error_aborts_all queryBError ["A", "B", "C"] ⟨"B", by decide, by decide⟩

/-- C5: topic expansion never drops a canonical topic — on the success path,
on the partial-output path, and on the two total-failure paths (no text /
exception), where the original list is returned unchanged; the embedded
function is total, reflecting that `expand_topics_for_matching` catches
every exception (`utils.py` lines 497-586). -/
theorem expand_topics_superset (outcome : LLMOutcome)
    (canonical_topics : List String) (t : String) (h : t ∈ canonical_topics) :
    t ∈ expand_topics_for_matching outcome canonical_topics := by
  cases outcome with
  | exn => exact h
  | incompleteNoText => exact h
  | ok text => exact mem_ensure_originals canonical_topics _ t h
  | incompleteWithText text => exact mem_ensure_originals canonical_topics _ t h

/-- C5 witness: a canonical topic (`"NLP"`) missing from the classifier
output is still present in the expansion. -/
theorem expand_topics_superset_witness :
    "NLP" ∈ expand_topics_for_matching
      (LLMOutcome.ok "AI, artificial intelligence | Robotics, robots")
      ["AI", "Robotics", "NLP"] :=
  expand_topics_superset
    (LLMOutcome.ok "AI, artificial intelligence | Robotics, robots")
    ["AI", "Robotics", "NLP"] "NLP" (by decide)

/-- C6: the cooldown contract of `is_user_in_cooldown`,
`update_user_cooldown` and `get_cooldown_remaining` (`utils.py` lines
67-83): in-cooldown iff `now - last_tagged < USER_TAG_COOLDOWN`; a user with
no entry is never in cooldown (for any realistic clock value, i.e. whenever
`now ≥ USER_TAG_COOLDOWN`, since an absent entry defaults to timestamp 0);
and immediately after `update_user_cooldown` the user is in cooldown with
exactly `USER_TAG_COOLDOWN` remaining (the same `now` models "within clock
resolution"). -/
theorem cooldown_contract (cooldowns : List (String × Int)) (now : Int)
    (user_id : String) (hnow : USER_TAG_COOLDOWN ≤ now) :
    (is_user_in_cooldown cooldowns now user_id = true ↔
      now - ((cooldowns.lookup user_id).getD 0) < USER_TAG_COOLDOWN) ∧
    (cooldowns.lookup user_id = none →
      is_user_in_cooldown cooldowns now user_id = false) ∧
    is_user_in_cooldown (update_user_cooldown cooldowns user_id now) now user_id = true ∧
    get_cooldown_remaining (update_user_cooldown cooldowns user_id now) now user_id =
      USER_TAG_COOLDOWN := by
  refine ⟨by simp [is_user_in_cooldown], ?_, ?_, ?_⟩
  · intro habs
    simp only [is_user_in_cooldown, habs, Option.getD_none, decide_eq_false_iff_not, not_lt,
      sub_zero]
    exact hnow
  · simp [is_user_in_cooldown, lookup_update_user_cooldown, USER_TAG_COOLDOWN]
  · simp [get_cooldown_remaining, lookup_update_user_cooldown, USER_TAG_COOLDOWN]

/-- C6 witness: the contract at a concrete map, clock and user. -/
theorem cooldown_contract_witness :
    USER_TAG_COOLDOWN ≤ (5000 : Int) ∧
    ((is_user_in_cooldown [("V", 100)] 5000 "U" = true ↔
        (5000 : Int) - (([(("V" : String), (100 : Int))].lookup "U").getD 0) <
          USER_TAG_COOLDOWN) ∧
      ([(("V" : String), (100 : Int))].lookup "U" = none →
        is_user_in_cooldown [("V", 100)] 5000 "U" = false) ∧
      is_user_in_cooldown (update_user_cooldown [("V", 100)] "U" 5000) 5000 "U" = true ∧
      get_cooldown_remaining (update_user_cooldown [("V", 100)] "U" 5000) 5000 "U" =
        USER_TAG_COOLDOWN) :=
  ⟨by decide, cooldown_contract [("V", 100)] 5000 "U" (by decide)⟩

/-- C7: the tagging gate rejects an empty topic list and a list of more than
8 topics for every classifier outcome (so without consulting the
classifier), and on classifier failure it falls back to the keyword
heuristic: admit iff some topic contains a technical keyword AND the topic
count is at most 3 (`utils.py` lines 946-951 and 1002-1011). -/
theorem tagging_gate_guards_and_fallback (outcome : LLMOutcome)
    (channel_id : String) (topics : List String) :
    (topics = [] → should_suggest_users outcome channel_id topics = false) ∧
    (8 < topics.length → should_suggest_users outcome channel_id topics = false) ∧
    (topics ≠ [] → topics.length ≤ 8 →
      should_suggest_users LLMOutcome.exn channel_id topics =
        ((topics.any fun topic =>
            tech_keywords.any fun keyword => hasSubstr (pyLower topic) keyword) &&
          decide (topics.length ≤ 3))) := by
  refine ⟨?_, ?_, ?_⟩
  · intro h; subst h; simp [should_suggest_users]
  · intro h
    by_cases he : topics.isEmpty <;> simp [should_suggest_users, he, h]
  · intro h1 h2
    have he : topics.isEmpty = false := by
      simpa [List.isEmpty_iff] using h1
    simp [should_suggest_users, he, Nat.not_lt.mpr h2]

/-- C7 witness: classifier unreachable with four topics is rejected
regardless of keyword content; the empty list is rejected for a successful
classifier outcome. -/
theorem tagging_gate_guards_witness :
    should_suggest_users (LLMOutcome.ok "YES") "C1" [] = false ∧
    should_suggest_users LLMOutcome.exn "C1" ["Coffee", "Weather", "Sports", "Lunch"] = false := by
  constructor
  · exact (tagging_gate_guards_and_fallback (LLMOutcome.ok "YES") "C1" []).1 rfl
  · have h := (tagging_gate_guards_and_fallback LLMOutcome.exn "C1"
      ["Coffee", "Weather", "Sports", "Lunch"]).2.2 (by decide) (by decide)
    rw [h]; decide

/-- C8 counterexample: for the delimiter-free item `"Python"`, the interest
parser assigns `IS_EXPERT_IN` — the highest-priority tag, not the claimed
lowest-priority `MENTIONS`; only the topic parser defaults to `MENTIONS`
(`nlp.py` lines 126-134 vs 61-69). -/
theorem interests_default_counterexample :
    extract_interests_with_relationships (LLMOutcome.ok "Python") =
      Except.ok [("Python", "IS_EXPERT_IN")] ∧
    extract_interests_with_relationships (LLMOutcome.ok "Python") ≠
      Except.ok [("Python", "MENTIONS")] ∧
    extract_topics_with_relationships (LLMOutcome.ok "Python") =
      [("Python", "MENTIONS")] := by
  refine ⟨by decide, by decide, by decide⟩

/-- C8 amended: for every classifier-output item without the `|` delimiter,
the topic parser defaults the relationship to `MENTIONS` while the interest
parser defaults it to `IS_EXPERT_IN` (`nlp.py` lines 61-69 and 126-134). -/
theorem parsers_default_tags (content item : String)
    (h : item ∈ pySplit ',' (pyStrip content))
    (hb : pyContainsChar (pyStrip item) '|' = false) :
    ∃ t : String,
      (t, "MENTIONS") ∈ extract_topics_with_relationships (LLMOutcome.ok content) ∧
      ∃ l, extract_interests_with_relationships (LLMOutcome.ok content) = Except.ok l ∧
        (t, "IS_EXPERT_IN") ∈ l := by
  refine ⟨pyStrip (pyStrip item), ?_, parseLabeled "IS_EXPERT_IN" (pyStrip content), rfl, ?_⟩
  · show _ ∈ parseLabeled "MENTIONS" (pyStrip content)
    refine List.mem_map.mpr ⟨item, h, ?_⟩
    simp [hb]
  · refine List.mem_map.mpr ⟨item, h, ?_⟩
    simp [hb]

/-- C8 witness: the amended theorem at the concrete delimiter-free output
`"Python"`. -/
theorem parsers_default_tags_witness :
    ∃ t : String,
      (t, "MENTIONS") ∈ extract_topics_with_relationships (LLMOutcome.ok "Python") ∧
      ∃ l, extract_interests_with_relationships (LLMOutcome.ok "Python") = Except.ok l ∧
        (t, "IS_EXPERT_IN") ∈ l :=
  parsers_default_tags "Python" "Python" (by decide) (by decide)

/-- C9: past the topic-count guards, the tagging gate admits exactly when
the classifier output — complete or partial — stripped and uppercased equals
`"YES"`; an incomplete response with no text is rejected; the embedded
decision function is total, reflecting that every failure path is caught
inside `should_suggest_users` (`utils.py` lines 976-994). -/
theorem tagging_gate_strict_yes (channel_id : String) (topics : List String)
    (s : String) (h1 : topics ≠ []) (h2 : topics.length ≤ 8) :
    (should_suggest_users (LLMOutcome.ok s) channel_id topics = true ↔
      pyUpper (pyStrip s) = "YES") ∧
    (should_suggest_users (LLMOutcome.incompleteWithText s) channel_id topics = true ↔
      pyUpper (pyStrip s) = "YES") ∧
    should_suggest_users LLMOutcome.incompleteNoText channel_id topics = false := by
  have he : topics.isEmpty = false := by
    simpa [List.isEmpty_iff] using h1
  refine ⟨?_, ?_, ?_⟩ <;>
    simp [should_suggest_users, he, Nat.not_lt.mpr h2]

/-- C9 witness: `" yes "` (admitted after strip/upper) and a token-exhausted
empty response (rejected), at a concrete channel and topic list. -/
theorem tagging_gate_strict_yes_witness :
    should_suggest_users (LLMOutcome.ok " yes ") "C1" ["AI"] = true ∧
    should_suggest_users LLMOutcome.incompleteNoText "C1" ["AI"] = false := by
  have h := tagging_gate_strict_yes "C1" ["AI"] " yes " (by decide) (by decide)
  exact ⟨h.1.mpr (by decide), h.2.2⟩

/-- C10: the fallback heuristic's keyword test is substring containment on
the lowercased topic text, so the non-technical single-topic list
`["Email"]` is admitted because `"email"` contains the keyword `"ai"`
(`utils.py` lines 1004-1010). -/
theorem fallback_substring_match_email :
    should_suggest_users LLMOutcome.exn "C1" ["Email"] = true ∧
    hasSubstr (pyLower "Email") "ai" = true := by
  refine ⟨by decide, by decide⟩

/-! ## Consolidation invariant (for the merge characterization) -/

/-- The very first edge of a fresh entry leaves its own relationship in
place, because the per-edge upgrade is also applied to the entry it has just
initialised (`utils.py` lines 650-674). -/
theorem upgradeRel_self (r : String) : upgradeRel r r = r := by
  by_cases h1 : r = "IS_EXPERT_IN"
  · simp [upgradeRel, h1]
  · by_cases h2 : r = "WORKING_ON"
    · simp [upgradeRel, h1, h2]
    · simp [upgradeRel, h1, h2]

/-- `updateCand` never changes the user id. -/
theorem updateCand_user_id (c : Candidate) (ct : String) (u : GraphUser) :
    (updateCand c ct u).user_id = c.user_id := rfl

/-- `updateCand` never changes the activity level. -/
theorem updateCand_activity (c : Candidate) (ct : String) (u : GraphUser) :
    (updateCand c ct u).activity_level = c.activity_level := rfl

/-- An edge for a user id not yet in the map appends a fresh entry at the
end. -/
theorem addEdge_not_mem (m : List Candidate) (ct : String) (u : GraphUser)
    (h : u.user_id ∉ m.map (fun c => c.user_id)) :
    addEdge m ct u = m ++ [updateCand (freshCand u) ct u] := by
  induction m with
  | nil => rfl
  | cons c rest ih =>
    have hne : ¬c.user_id = u.user_id := fun he => h (by simp [he])
    have h' : u.user_id ∉ rest.map (fun c => c.user_id) := fun hm => h (by simp [hm])
    simp [addEdge, hne, ih h']

/-- An edge for a user id already in the map updates the (unique) matching
entry in place. -/
theorem addEdge_mem (m : List Candidate) (ct : String) (u : GraphUser)
    (h : u.user_id ∈ m.map (fun c => c.user_id)) :
    ∃ m₁ c m₂, m = m₁ ++ c :: m₂ ∧ c.user_id = u.user_id ∧
      u.user_id ∉ m₁.map (fun c => c.user_id) ∧
      addEdge m ct u = m₁ ++ updateCand c ct u :: m₂ := by
  induction m with
  | nil => simp at h
  | cons c₀ rest ih =>
    by_cases h0 : c₀.user_id = u.user_id
    · exact ⟨[], c₀, rest, rfl, h0, by simp, by simp [addEdge, h0]⟩
    · have h' : u.user_id ∈ rest.map (fun c => c.user_id) := by
        simp only [List.map_cons, List.mem_cons] at h
        rcases h with he | hm
        · exact absurd he.symm h0
        · exact hm
      obtain ⟨m₁, c, m₂, hdec, hc, hn, he⟩ := ih h'
      refine ⟨c₀ :: m₁, c, m₂, by simp [hdec], hc, ?_, ?_⟩
      · simp only [List.map_cons, List.mem_cons]
        rintro (hu | hu)
        · exact h0 hu.symm
        · exact hn hu
      · simp [addEdge, h0, he]

/-- The running invariant of the consolidation loop: after folding a list
`L` of edge observations into the map, (a) each entry's activity level is the
activity of that user's first edge in `L` and its best relationship is the
left fold of the per-edge upgrade over that user's edges in `L`, (b) user
ids in the map are unique, and (c) every edge's user already has an entry. -/
def ConsInv (m : List Candidate) (L : List GraphUser) : Prop :=
  (∀ c ∈ m, ∃ e es,
      L.filter (fun u => u.user_id == c.user_id) = e :: es ∧
      c.activity_level = e.activity_level ∧
      c.best_relationship =
        (es.map (fun u => u.relationship)).foldl upgradeRel e.relationship) ∧
  (m.map (fun c => c.user_id)).Nodup ∧
  (∀ u ∈ L, u.user_id ∈ m.map (fun c => c.user_id))

/-- One `addEdge` step preserves the consolidation invariant. -/
theorem consInv_addEdge (m : List Candidate) (L : List GraphUser) (ct : String)
    (u : GraphUser) (h : ConsInv m L) : ConsInv (addEdge m ct u) (L ++ [u]) := by
  obtain ⟨h1, h2, h3⟩ := h
  by_cases hm : u.user_id ∈ m.map (fun c => c.user_id)
  · obtain ⟨m₁, c, m₂, hdec, hc, hn1, he⟩ := addEdge_mem m ct u hm
    subst hdec
    rw [he]
    have hidnew : (m₁ ++ updateCand c ct u :: m₂).map (fun c => c.user_id) =
        (m₁ ++ c :: m₂).map (fun c => c.user_id) := by
      simp [updateCand_user_id]
    have hidm2 : c.user_id ∉ m₂.map (fun c => c.user_id) := by
      have h2' := h2
      rw [List.map_append, List.map_cons, List.nodup_append] at h2'
      exact (List.nodup_cons.mp h2'.2.1).1
    refine ⟨?_, ?_, ?_⟩
    · intro c' hc'
      rcases List.mem_append.mp hc' with hin | hin
      · have hne : (u.user_id == c'.user_id) = false := by
          have : c'.user_id ∈ m₁.map (fun c => c.user_id) := List.mem_map_of_mem _ hin
          simp only [beq_eq_false_iff_ne, ne_eq]
          exact fun hequ => hn1 (hequ ▸ this)
        obtain ⟨e, es, hf, ha, hb⟩ := h1 c' (by simp [hin])
        refine ⟨e, es, ?_, ha, hb⟩
        rw [List.filter_append]
        simp only [List.filter_cons, List.filter_nil, hne]
        simpa using hf
      · rcases List.mem_cons.mp hin with rfl | hin2
        · obtain ⟨e, es, hf, ha, hb⟩ := h1 c (by simp)
          refine ⟨e, es ++ [u], ?_, ?_, ?_⟩
          · have hgoal : (L ++ [u]).filter (fun x => x.user_id == c.user_id) =
                e :: (es ++ [u]) := by
              rw [List.filter_append, hf]
              simp [hc]
            simpa [updateCand_user_id] using hgoal
          · simpa [updateCand_activity] using ha
          · show upgradeRel c.best_relationship u.relationship = _
            rw [hb]
            simp [List.foldl_append]
        · have hne : (u.user_id == c'.user_id) = false := by
            have hmem : c'.user_id ∈ m₂.map (fun c => c.user_id) :=
              List.mem_map_of_mem _ hin2
            simp only [beq_eq_false_iff_ne, ne_eq]
            intro hequ
            exact hidm2 (hc ▸ hequ ▸ hmem)
          obtain ⟨e, es, hf, ha, hb⟩ := h1 c' (by simp [hin2])
          refine ⟨e, es, ?_, ha, hb⟩
          rw [List.filter_append]
          simp only [List.filter_cons, List.filter_nil, hne]
          simpa using hf
    · rw [hidnew]; exact h2
    · intro v hv
      rw [hidnew]
      rcases List.mem_append.mp hv with hvL | hvu
      · exact h3 v hvL
      · have : v = u := by simpa using hvu
        subst this
        exact hm
  · rw [addEdge_not_mem m ct u hm]
    refine ⟨?_, ?_, ?_⟩
    · intro c' hc'
      rcases List.mem_append.mp hc' with hin | hin
      · have hne : (u.user_id == c'.user_id) = false := by
          have : c'.user_id ∈ m.map (fun c => c.user_id) := List.mem_map_of_mem _ hin
          simp only [beq_eq_false_iff_ne, ne_eq]
          exact fun hequ => hm (hequ ▸ this)
        obtain ⟨e, es, hf, ha, hb⟩ := h1 c' hin
        refine ⟨e, es, ?_, ha, hb⟩
        rw [List.filter_append]
        simp only [List.filter_cons, List.filter_nil, hne]
        simpa using hf
      · have hcnew : c' = updateCand (freshCand u) ct u := by simpa using hin
        subst hcnew
        have hid : (updateCand (freshCand u) ct u).user_id = u.user_id := rfl
        have hfL : L.filter (fun x => x.user_id == (updateCand (freshCand u) ct u).user_id) = [] := by
          rw [List.filter_eq_nil_iff]
          intro v hv hbe
          rw [hid] at hbe
          have : v.user_id = u.user_id := by simpa using hbe
          exact hm (this ▸ h3 v hv)
        refine ⟨u, [], ?_, rfl, ?_⟩
        · rw [List.filter_append, hfL]
          simp [hid]
        · show upgradeRel (freshCand u).best_relationship u.relationship = _
          show upgradeRel u.relationship u.relationship = _
          simp [upgradeRel_self]
    · simp only [List.map_append, List.map_cons, List.map_nil]
      rw [List.nodup_append]
      refine ⟨h2, by simp, ?_⟩
      intro x hx hx2
      have : x = u.user_id := by simpa using hx2
      subst this
      exact hm hx
    · intro v hv
      rcases List.mem_append.mp hv with hvL | hvu
      · have := h3 v hvL
        simp only [List.map_append, List.mem_append]
        exact Or.inl this
      · have : v = u := by simpa using hvu
        subst this
        simp [updateCand_user_id, freshCand]

/-- All edge observations of the ranker's mapping in the consolidation
loop's iteration order (found topics in mapping order, users in ranker
order). -/
def flatUsers : List (String × List GraphUser) → List GraphUser
  | [] => []
  | p :: rest => p.2 ++ flatUsers rest

/-- Folding one topic group's users preserves the invariant. -/
theorem consInv_foldUsers (ct : String) (us : List GraphUser) :
    ∀ (m : List Candidate) (L : List GraphUser), ConsInv m L →
      ConsInv (us.foldl (fun m u => addEdge m ct u) m) (L ++ us) := by
  induction us with
  | nil => intro m L h; simpa using h
  | cons u us ih =>
    intro m L h
    rw [List.foldl_cons]
    have h' := consInv_addEdge m L ct u h
    have := ih _ _ h'
    simpa [List.append_assoc] using this

/-- The whole consolidation double loop preserves the invariant. -/
theorem consInv_loop (topics : List String) :
    ∀ (relevant : List (String × List GraphUser)) (m : List Candidate)
      (L : List GraphUser), ConsInv m L →
      ConsInv
        (relevant.foldl
          (fun user_map p =>
            p.2.foldl
              (fun user_map user => addEdge user_map (mapCanonical topics p.1) user)
              user_map)
          m)
        (L ++ flatUsers relevant) := by
  intro relevant
  induction relevant with
  | nil => intro m L h; simpa [flatUsers] using h
  | cons p rest ih =>
    intro m L h
    rw [List.foldl_cons]
    have h1 := consInv_foldUsers (mapCanonical topics p.1) p.2 m L h
    have := ih _ _ h1
    simpa [flatUsers, List.append_assoc] using this

/-- The consolidation invariant holds of `consolidate`'s output. -/
theorem consInv_consolidate (topics : List String)
    (relevant : List (String × List GraphUser)) :
    ConsInv (consolidate topics relevant) (flatUsers relevant) := by
  have h0 : ConsInv [] [] := ⟨by simp, by simp, by simp⟩
  have := consInv_loop topics relevant [] [] h0
  simpa [consolidate] using this

/-- Characterization of the left fold of the per-edge upgrade: the result is
`IS_EXPERT_IN` if any folded edge is an expert edge, else `WORKING_ON` if
any is a working edge, else the initial value — `INTERESTED_IN` and
`MENTIONS` edges never change it. -/
theorem foldl_upgradeRel_char (rs : List String) :
    ∀ b : String,
      rs.foldl upgradeRel b =
        (if b = "IS_EXPERT_IN" ∨ "IS_EXPERT_IN" ∈ rs then "IS_EXPERT_IN"
         else if b = "WORKING_ON" ∨ "WORKING_ON" ∈ rs then "WORKING_ON"
         else b) := by
  induction rs with
  | nil =>
    intro b
    by_cases h1 : b = "IS_EXPERT_IN" <;> by_cases h2 : b = "WORKING_ON" <;>
      simp [h1, h2]
  | cons r rs ih =>
    intro b
    rw [List.foldl_cons, ih]
    by_cases hrE : r = "IS_EXPERT_IN" <;> by_cases hrW : r = "WORKING_ON" <;>
      by_cases hbE : b = "IS_EXPERT_IN" <;> by_cases hbW : b = "WORKING_ON" <;>
      simp_all [upgradeRel, List.mem_cons, Ne.symm]

/-- C1 counterexample: a non-empty consolidated candidate pool whose only
candidate is suppressed by the cooldown filter yields a suggestion set with
an empty user list — not `none` — refuting the claim that zero survivors
produce `none` (`utils.py` lines 621-742 return the `suggestions` dict on
every path past the empty-mapping early return). -/
theorem suggestion_zero_survivors_counterexample :
    suggest_relevant_users ["AI"] [("AI", [gAlice])] (fun _ => true) 3 =
      some { topics := ["AI"], users := [], message := "" } ∧
    suggest_relevant_users ["AI"] [("AI", [gAlice])] (fun _ => true) 3 ≠ none := by
  refine ⟨by decide, by decide⟩

/-- C1 amended: whenever the ranker's mapping is non-empty, the function
returns a suggestion set whose user list is the cooldown-free survivors of
the sorted pool truncated to `max_suggestions`; in particular, when every
candidate is in cooldown the result is a suggestion set with an empty user
list (not `none`), and when there are survivors it is the first
`max_suggestions` of them.  `none` is returned only for an empty mapping. -/
theorem suggestion_engine_shape (topics : List String)
    (relevant_users : List (String × List GraphUser))
    (in_cooldown : String → Bool) (max_suggestions : Nat)
    (h : relevant_users ≠ []) :
    suggest_relevant_users topics relevant_users in_cooldown max_suggestions =
      some { topics := topics,
             users := ((suggestSorted topics relevant_users).filter
               (fun u => !in_cooldown u.user_id)).take max_suggestions,
             message := "" } ∧
    ((∀ c ∈ suggestSorted topics relevant_users, in_cooldown c.user_id = true) →
      suggest_relevant_users topics relevant_users in_cooldown max_suggestions =
        some { topics := topics, users := [], message := "" }) := by
  have he : relevant_users.isEmpty = false := by
    simpa [List.isEmpty_iff] using h
  have hmain :
      suggest_relevant_users topics relevant_users in_cooldown max_suggestions =
        some { topics := topics,
               users := ((suggestSorted topics relevant_users).filter
                 (fun u => !in_cooldown u.user_id)).take max_suggestions,
               message := "" } := by
    simp [suggest_relevant_users, he, filterCooldown_fst]
  refine ⟨hmain, ?_⟩
  intro hall
  rw [hmain]
  have hnil : (suggestSorted topics relevant_users).filter
      (fun u => !in_cooldown u.user_id) = [] := by
    rw [List.filter_eq_nil_iff]
    intro c hc
    simp [hall c hc]
  rw [hnil]
  simp

/-- C1 witness: the amended theorem at a concrete non-empty mapping. -/
theorem suggestion_engine_shape_witness :
    suggest_relevant_users ["AI"] [("AI", [gAlice])] (fun _ => false) 3 =
      some { topics := ["AI"],
             users := ((suggestSorted ["AI"] [("AI", [gAlice])]).filter
               (fun u => !(fun _ => false) u.user_id)).take 3,
             message := "" } ∧
    ((∀ c ∈ suggestSorted ["AI"] [("AI", [gAlice])], (fun _ => false) c.user_id = true) →
      suggest_relevant_users ["AI"] [("AI", [gAlice])] (fun _ => false) 3 =
        some { topics := ["AI"], users := [], message := "" }) :=
  suggestion_engine_shape ["AI"] [("AI", [gAlice])] (fun _ => false) 3 (by decide)

/-- C3 counterexample: with one `MENTIONS` candidate of activity 5 and one
`INTERESTED_IN` candidate of activity 1, the sorted candidate order places
the `MENTIONS` user first — refuting the claim that all `INTERESTED_IN`
candidates precede all `MENTIONS` candidates (the sort key of `utils.py`
lines 679-683 maps both to tier 3). -/
theorem sorted_tier_counterexample :
    (suggestSorted ["AI"] relTier).map (fun c => c.best_relationship) =
      ["MENTIONS", "INTERESTED_IN"] := by
  decide

/-- C3 amended: the sorted order places all `IS_EXPERT_IN` candidates before
all `WORKING_ON` candidates and those before everything else, but
`INTERESTED_IN` and `MENTIONS` share the single lowest tier (`relPriority`
maps both to 3); within a tier — and between `INTERESTED_IN` and `MENTIONS`
— descending activity level is the only ordering.  Stated as: consecutive
pairs of the output are non-decreasing in the key
`(relPriority, -activity_level)`. -/
theorem sorted_tier_order (topics : List String)
    (relevant_users : List (String × List GraphUser)) :
    (suggestSorted topics relevant_users).Pairwise (fun c d =>
      relPriority c.best_relationship < relPriority d.best_relationship ∨
        (relPriority c.best_relationship = relPriority d.best_relationship ∧
          d.activity_level ≤ c.activity_level)) :=
  List.sorted_insertionSort candLe (consolidate topics relevant_users)

/-- C4 counterexample: a user whose edges are a `MENTIONS` edge (activity 2)
followed by an `INTERESTED_IN` edge (activity 7) consolidates to best
relationship `MENTIONS` — not `INTERESTED_IN` — with activity level 2, the
first edge's value — not the accumulated 9 — refuting both the
maximum-priority-merge and the activity-accumulation parts of the claim. -/
theorem consolidation_merge_counterexample :
    (consolidate ["AI"] relMerge).map (fun c => (c.best_relationship, c.activity_level)) =
      [("MENTIONS", 2)] := by
  decide

/-- C4 amended: consolidation merges all edges of one user into one
candidate whose best relationship is `IS_EXPERT_IN` if any matched edge is
an expert edge, else `WORKING_ON` if any is a working edge, and otherwise
the relationship of the user's first matched edge (`INTERESTED_IN` and
`MENTIONS` edges never upgrade it), and whose activity level is the first
matched edge's activity level — not a total accumulated across edges
(`utils.py` lines 648-674). -/
theorem consolidation_merge_characterization (topics : List String)
    (relevant_users : List (String × List GraphUser)) (c : Candidate)
    (hc : c ∈ consolidate topics relevant_users) :
    ∃ e es, (flatUsers relevant_users).filter (fun u => u.user_id == c.user_id) = e :: es ∧
      c.activity_level = e.activity_level ∧
      c.best_relationship =
        (if (e :: es).any (fun u => u.relationship == "IS_EXPERT_IN") then "IS_EXPERT_IN"
         else if (e :: es).any (fun u => u.relationship == "WORKING_ON") then "WORKING_ON"
         else e.relationship) := by
  obtain ⟨e, es, hf, ha, hb⟩ := (consInv_consolidate topics relevant_users).1 c hc
  refine ⟨e, es, hf, ha, ?_⟩
  rw [hb, foldl_upgradeRel_char]
  have hA : (e.relationship = "IS_EXPERT_IN" ∨
      "IS_EXPERT_IN" ∈ es.map (fun u => u.relationship)) ↔
      ((e :: es).any (fun u => u.relationship == "IS_EXPERT_IN") = true) := by
    simp [List.any_cons, List.mem_map]
  have hB : (e.relationship = "WORKING_ON" ∨
      "WORKING_ON" ∈ es.map (fun u => u.relationship)) ↔
      ((e :: es).any (fun u => u.relationship == "WORKING_ON") = true) := by
    simp [List.any_cons, List.mem_map]
  exact if_congr hA rfl (if_congr hB rfl rfl)

/-- C4 witness: the merge characterization at the concrete two-edge input
`relMerge`, whose single consolidated candidate is `candBob`. -/
theorem consolidation_merge_characterization_witness :
    ∃ e es, (flatUsers relMerge).filter (fun u => u.user_id == candBob.user_id) = e :: es ∧
      candBob.activity_level = e.activity_level ∧
      candBob.best_relationship =
        (if (e :: es).any (fun u => u.relationship == "IS_EXPERT_IN") then "IS_EXPERT_IN"
         else if (e :: es).any (fun u => u.relationship == "WORKING_ON") then "WORKING_ON"
         else e.relationship) :=
  consolidation_merge_characterization ["AI"] relMerge candBob (by decide)
